import Mathlib

/-!
Verification of the cargo-proxy-mirror repository.

This file gives a shallow embedding, as executable Lean definitions, of the
parts of the repository relevant to the claims under review:

* the tunnel data model (crates/common/src/lib.rs): headers, opcodes, messages;
* the proxy-side download worker (crates/proxy/src/main.rs): redirect chasing,
  header extraction, body streaming, completion signalling;
* the mirror HTTP front end (crates/mirror/src/main.rs): URL parsing and the
  translation of a session opcode stream into an HTTP response body;
* the mirror session multiplexer (crates/mirror/src/proxy_connection.rs):
  session table, message routing, uplink reset;
* the control-plane server (crates/mirror/src/cli_server.rs) and its cache
  operations, over an explicit filesystem model;
* the two framing layers (crates/common/src/lib.rs TcpSender and TcpReceiver,
  and crates/common/src/sync_tcp_end_point.rs SyncTcpEndPoint).

Theorems about these definitions settle the claims; each claim theorem carries
a doc comment naming the claim.
-/

namespace CargoProxyMirror

/-! ## Tunnel data model (crates/common/src/lib.rs) -/

/-- A byte, modelled as a natural number (the embedding never needs the
upper bound 256). -/
abbrev Byte := Nat

/-- `down_stream::Headers`: the headers forwarded with `Init`. -/
structure Headers where
  content_type : String
  content_length : Nat
deriving DecidableEq, Repr

/-- `down_stream::Error`: errors carried inside `Complete`. -/
inductive DsError where
  | Unspecified
  | Generic (msg : String)
deriving DecidableEq, Repr

/-- Decidable equality for `Except` results. -/
instance {ε α : Type} [DecidableEq ε] [DecidableEq α] : DecidableEq (Except ε α) :=
  fun a b =>
  match a, b with
  | .ok x, .ok y =>
      if h : x = y then isTrue (by rw [h])
      else isFalse (fun hh => by cases hh; exact h rfl)
  | .ok _, .error _ => isFalse (fun h => by cases h)
  | .error _, .ok _ => isFalse (fun h => by cases h)
  | .error x, .error y =>
      if h : x = y then isTrue (by rw [h])
      else isFalse (fun hh => by cases hh; exact h rfl)

/-- `down_stream::Opcode`: `Init -> Chunk* -> Complete` state machine items.
`Complete` carries `Result<(),Error>`, embedded as `Except DsError Unit`. -/
inductive Opcode where
  | Init (headers : Headers)
  | Chunk (bytes : List Byte)
  | Complete (result : Except DsError Unit)
deriving DecidableEq, Repr

/-- `down_stream::Message`: an opcode tagged with its session. -/
structure Message where
  session_id : Nat
  opcode : Opcode
deriving DecidableEq, Repr

/-! ## Proxy-side download worker (crates/proxy/src/main.rs)

The worker's interaction with the upstream HTTP server is embedded by giving
the response data explicitly: a response is a status, the two headers as they
parse (or fail to parse), an optional redirect location, and a body read as a
list of items each of which is either a block of bytes or an I/O failure
(mirroring `response.data()` yielding `Option<Result<Bytes>>`).  A download
attempt consumes a list of fetch results, one per `client.get` call along the
redirect chain. -/

/-- `DownloadError` from crates/proxy/src/main.rs. -/
inductive DownloadError where
  | Hyper
  | Downlink
  | NotAvailable (status : Nat)
  | BadRedirect
  | BadOrMissingHeader (name : String)
deriving DecidableEq, Repr

/-- One item produced by reading the upstream response body:
a data block, or an I/O error from hyper. -/
inductive BodyItem where
  | block (bytes : List Byte)
  | ioError
deriving DecidableEq, Repr

/-- An upstream HTTP response as the worker sees it.  A header field is
`none` when the header is missing or unparseable (the two cases the code
collapses into `BadOrMissingHeader`). -/
structure HResponse where
  status : Nat
  location : Option String
  contentType : Option String
  contentLength : Option Nat
  body : List BodyItem
deriving DecidableEq, Repr

/-- One `client.get` call: hyper-level failure, or a response. -/
inductive Fetch where
  | failure
  | response (r : HResponse)
deriving DecidableEq, Repr

/-- `StatusCode::is_success`: 2xx. -/
def is_success (status : Nat) : Bool := 200 ≤ status && status < 300

/-- `StatusCode::is_redirection`: 3xx. -/
def is_redirection (status : Nat) : Bool := 300 ≤ status && status < 400

/-- The body-streaming loop of `do_download` (crates/proxy/src/main.rs,
lines 111-120): each block is forwarded as a `Chunk`; an I/O error aborts
with `DownloadError::Hyper`.  Returns the opcodes sent (in order, assuming
the channel accepts them) and the loop's outcome. -/
def streamBody : List BodyItem → List Opcode × Except DownloadError Unit
  | [] => ([], .ok ())
  | .block bytes :: rest =>
      let (ops, res) := streamBody rest
      (Opcode.Chunk bytes :: ops, res)
  | .ioError :: _ => ([], .error .Hyper)

/-- `do_download` (crates/proxy/src/main.rs, lines 89-122): extract
`Content-Type` then `Content-Length` (either failing is terminal before any
opcode is sent), send `Init`, then stream the body.  Returns the opcodes
sent and the outcome. -/
def do_download (resp : HResponse) : List Opcode × Except DownloadError Unit :=
  match resp.contentType with
  | none => ([], .error (.BadOrMissingHeader "content-type"))
  | some ct =>
    match resp.contentLength with
    | none => ([], .error (.BadOrMissingHeader "content-length"))
    | some cl =>
      let (ops, res) := streamBody resp.body
      (Opcode.Init ⟨ct, cl⟩ :: ops, res)

/-- The redirect-chasing loop of `download_file` (crates/proxy/src/main.rs,
lines 136-153) over the successive fetch results.  A 2xx response ends the
loop; a 3xx with a parseable `Location` retries with the next fetch result;
a 3xx without one is `BadRedirect`; any other status is `NotAvailable`.
An exhausted chain stands for a `client.get` call that never returns a
response, embedded as the hyper failure it would surface as. -/
def download_file_loop : List Fetch → Except DownloadError HResponse
  | [] => .error .Hyper
  | .failure :: _ => .error .Hyper
  | .response r :: rest =>
      if is_success r.status then .ok r
      else if is_redirection r.status then
        match r.location with
        | some _ => download_file_loop rest
        | none => .error .BadRedirect
      else .error (.NotAvailable r.status)

/-- `download_file` (crates/proxy/src/main.rs, lines 134-156): chase
redirects, then run `do_download` on the final response.  The redirect loop
itself sends no opcodes. -/
def download_file (chain : List Fetch) : List Opcode × Except DownloadError Unit :=
  match download_file_loop chain with
  | .error e => ([], .error e)
  | .ok r => do_download r

/-- The per-download task body spawned by `rx_process`
(crates/proxy/src/main.rs, lines 174-189): run `download_file`, then send
`Complete(Ok(()))` on success and `Complete(Err(Unspecified))` on failure.
This is the full opcode sequence the task offers to the TX channel. -/
def download_task_ops (chain : List Fetch) : List Opcode :=
  let (ops, res) := download_file chain
  match res with
  | .ok _ => ops ++ [Opcode.Complete (.ok ())]
  | .error _ => ops ++ [Opcode.Complete (.error .Unspecified)]

/-- The opcodes actually accepted by the TX channel when only the first
`alive` sends succeed (a futures mpsc channel whose receiver is dropped
fails every send from that point on, so a failed `send_message` aborts
`do_download` with `Downlink` and the subsequent `send_failed` fails too):
the sent sequence is the corresponding prefix.  `none` means the channel
stays alive throughout. -/
def download_task_sent (chain : List Fetch) (alive : Option Nat) : List Opcode :=
  match alive with
  | none => download_task_ops chain
  | some k => (download_task_ops chain).take k

/-- All messages a download task sends carry the `session_id` of the
originating upstream request (`DownloadStream.send_message`,
crates/proxy/src/main.rs, lines 60-62). -/
def download_task_msgs (sid : Nat) (chain : List Fetch) (alive : Option Nat) :
    List Message :=
  (download_task_sent chain alive).map (fun op => ⟨sid, op⟩)

/-! ## Shape predicates on opcode sequences -/

/-- Recognises `Chunk* Complete`. -/
def chunks_then_complete : List Opcode → Bool
  | [Opcode.Complete _] => true
  | Opcode.Chunk _ :: rest => chunks_then_complete rest
  | _ => false

/-- Recognises the regex `Init Chunk* Complete` from the claim. -/
def matches_init_chunks_complete : List Opcode → Bool
  | Opcode.Init _ :: rest => chunks_then_complete rest
  | _ => false

/-- Recognises the amended shape actually emitted when the channel stays
alive: either `Init Chunk* Complete`, or a bare `Complete(Err)` when the
download fails before the headers have been extracted. -/
def matches_amended_shape (ops : List Opcode) : Bool :=
  matches_init_chunks_complete ops ||
    (match ops with
     | [Opcode.Complete (.error _)] => true
     | _ => false)

/-! ## Mirror HTTP front end (crates/mirror/src/main.rs) -/

/-- `str::strip_prefix`, over the underlying characters. -/
def stripPreChars : List Char → List Char → Option (List Char)
  | s, [] => some s
  | [], _ :: _ => none
  | c :: s, p :: ps => if c = p then stripPreChars s ps else none

/-- `str::strip_suffix`, over the underlying characters. -/
def stripSufChars (s suf : List Char) : Option (List Char) :=
  (stripPreChars s.reverse suf.reverse).map List.reverse

/-- Rust's `split('/')` iterator, collected: splits at every slash, keeping
empty segments, and yields one (empty) segment for the empty input. -/
def splitSlash : List Char → List (List Char)
  | [] => [[]]
  | c :: rest =>
      if c = '/' then [] :: splitSlash rest
      else
        match splitSlash rest with
        | s :: ss => (c :: s) :: ss
        | [] => [[c]]

/-- `parse_download_request` (crates/mirror/src/main.rs, lines 32-55).
The input is the request URI's `path_and_query`: `none` when the URI has
none, otherwise the path together with its optional query string.  The
`(Some, Some, None)` pattern on the `split('/')` iterator means the split
yields exactly two parts. -/
def parse_download_request (path_and_query : Option (String × Option String)) :
    Except Nat (String × String) :=
  match path_and_query with
  | none => .error 400
  | some (path, query) =>
    if query.isSome then .error 400
    else
      match stripPreChars path.data "/api/v1/crates/".data with
      | none => .error 404
      | some rest =>
        match stripSufChars rest "/download".data with
        | none => .error 404
        | some middle =>
          match splitSlash middle with
          | [package, version] => .ok (⟨package⟩, ⟨version⟩)
          | _ => .error 404

/-- `StreamError` (crates/mirror/src/main.rs, lines 74-78). -/
inductive StreamErr where
  | Unexpected
deriving DecidableEq, Repr

/-- The closure passed to `filter_map` in `proxy_download`
(crates/mirror/src/main.rs, lines 91-97): a `Chunk` becomes a body chunk,
`Complete(Ok(()))` is filtered out, anything else becomes a stream error. -/
def filter_map_item : Opcode → Option (Except StreamErr (List Byte))
  | .Chunk bytes => some (.ok bytes)
  | .Complete (.ok ()) => none
  | _ => some (.error .Unexpected)

/-- `proxy_download` (crates/mirror/src/main.rs, lines 80-107), applied to
the session's opcode stream: the first opcode must be `Init(headers)` (else
HTTP 500); the response carries those headers and a body stream obtained by
`filter_map` over the remaining opcodes. -/
def proxy_download (ops : List Opcode) :
    Except Nat (Headers × List (Except StreamErr (List Byte))) :=
  match ops with
  | Opcode.Init headers :: rest => .ok (headers, rest.filterMap filter_map_item)
  | _ => .error 500

/-- What the HTTP client receives from the body stream: the concatenated
bytes of the `Ok` items up to the first error item, and whether the body
ended cleanly (no error item reached). -/
def collect_body : List (Except StreamErr (List Byte)) → List Byte × Bool
  | [] => ([], true)
  | .ok bytes :: rest =>
      let (bs, clean) := collect_body rest
      (bytes ++ bs, clean)
  | .error _ :: _ => ([], false)

/-- The `Chunk` payloads of an opcode sequence, in emission order. -/
def chunk_payloads (ops : List Opcode) : List (List Byte) :=
  ops.filterMap (fun op => match op with | .Chunk bytes => some bytes | _ => none)

/-! ## Session multiplexer (crates/mirror/src/proxy_connection.rs)

The shared `State` is embedded with association lists for the `HashMap`
and an explicit per-session record in place of the mpsc channel: `alive`
is whether the receiver half still exists, `queue` the opcodes delivered
so far in order. -/

/-- Association-list lookup (first matching key). -/
def lookupKey {α β : Type} [DecidableEq α] : List (α × β) → α → Option β
  | [], _ => none
  | (k, v) :: rest, key => if k = key then some v else lookupKey rest key

/-- Association-list update-or-insert (replaces the first matching key). -/
def setKey {α β : Type} [DecidableEq α] : List (α × β) → α → β → List (α × β)
  | [], key, v => [(key, v)]
  | (k, w) :: rest, key, v =>
      if k = key then (key, v) :: rest else (k, w) :: setKey rest key v

/-- Association-list removal (first matching key). -/
def removeKey {α β : Type} [DecidableEq α] : List (α × β) → α → List (α × β)
  | [], _ => []
  | (k, w) :: rest, key => if k = key then rest else (k, w) :: removeKey rest key

/-- A session's delivery channel: whether the receiver is still held by the
HTTP response, and the opcodes delivered so far. -/
structure Session where
  alive : Bool
  queue : List Opcode
deriving DecidableEq, Repr

/-- `Sender::send` on the session channel: appends when the receiver is
alive, fails otherwise.  Returns the channel and whether the send
succeeded. -/
def Session.send (s : Session) (op : Opcode) : Session × Bool :=
  if s.alive then ({ s with queue := s.queue ++ [op] }, true) else (s, false)

/-- `State` (crates/mirror/src/proxy_connection.rs, lines 31-36).  The
uplink sender is identified by a number standing for the channel created at
each reset. -/
structure MuxState where
  last_mux : Nat
  uplink : Option Nat
  sessions : List (Nat × Session)
deriving DecidableEq, Repr

/-- The synthetic completion sent to evicted sessions on uplink reset. -/
def synthetic_complete : Opcode := .Complete (.error .Unspecified)

/-- `State::reset_uplink_to` (crates/mirror/src/proxy_connection.rs, lines
56-84): when an uplink already exists, the session map is moved out and
cleared, each evicted session is sent one `Complete(Err(Unspecified))`
(best effort: it only lands when the receiver is alive), and the uplink is
replaced by the new channel.  Returns the new state and the evicted
sessions after the synthetic send. -/
def reset_uplink_to (st : MuxState) (newUplink : Nat) :
    MuxState × List (Nat × Session) :=
  if st.uplink.isSome then
    let evicted := st.sessions.map (fun e => (e.1, (e.2.send synthetic_complete).1))
    ({ st with uplink := some newUplink, sessions := [] }, evicted)
  else
    ({ st with uplink := some newUplink }, [])

/-- One iteration of `ProxyConnection::process_receives`
(crates/mirror/src/proxy_connection.rs, lines 112-127): look the session up
in the table; if absent, drop the message; if present, send the opcode to
its channel, and on send failure (receiver dropped) remove the table
entry. -/
def route_message (st : MuxState) (m : Message) : MuxState :=
  match lookupKey st.sessions m.session_id with
  | none => st
  | some s =>
      let (s', sendOk) := s.send m.opcode
      if sendOk then { st with sessions := setKey st.sessions m.session_id s' }
      else { st with sessions := removeKey st.sessions m.session_id }

/-- `process_receives` over a whole inbound message sequence. -/
def process_receives (st : MuxState) (ms : List Message) : MuxState :=
  ms.foldl route_message st

/-! ## Cache filesystem model and control-plane server
(crates/mirror/src/cli_server.rs)

The filesystem is an association list from paths (segment lists) to
entries.  `noAccess` stands for a path whose metadata cannot be read
(e.g. permission denied): Rust's `Path::exists` returns `false` for it,
while creating or opening it fails. -/

/-- A filesystem path, as a list of segments below the root. -/
abbrev Path := List String

/-- A filesystem entry: a regular file with its content, a directory, or a
path whose metadata is inaccessible. -/
inductive FsEntry where
  | file (content : List Byte)
  | dir
  | noAccess
deriving DecidableEq, Repr

/-- The filesystem: paths not present are absent. -/
abbrev Fs := List (Path × FsEntry)

/-- `Path::exists`: `true` exactly when metadata can be read, so `false`
both for an absent path and for a metadata error. -/
def pathExists (fs : Fs) (p : Path) : Bool :=
  match lookupKey fs p with
  | some (.file _) => true
  | some .dir => true
  | some .noAccess => false
  | none => false

/-- `cpm_api::PackageId`. -/
structure PackageId where
  name : String
  version : String
deriving DecidableEq, Repr

/-- The cache path of a package: `<cache>/name/version`. -/
def crate_path (cache : Path) (id : PackageId) : Path :=
  cache ++ [id.name, id.version]

/-- `check_missing` (crates/mirror/src/cli_server.rs, lines 11-18): retain
exactly the packages whose cache path fails the `exists()` test. -/
def check_missing (fs : Fs) (cache : Path) (packages : List PackageId) :
    List PackageId :=
  packages.filter (fun id => !(pathExists fs (crate_path cache id)))

/-- Modelled from the claim's words, for comparison with `check_missing`:
return those packages whose cache path is not a regular file, with a
filesystem error other than not-found treated as present (omitted). -/
def check_missing_claimed (fs : Fs) (cache : Path) (packages : List PackageId) :
    List PackageId :=
  packages.filter (fun id =>
    match lookupKey fs (crate_path cache id) with
    | some (.file _) => false
    | some .noAccess => false
    | some .dir => true
    | none => true)

/-- `std::fs::create_dir` at a path whose parent (the cache root) exists:
succeeds exactly when the path is absent. -/
def create_dir (fs : Fs) (p : Path) : Except Unit Fs :=
  match lookupKey fs p with
  | none => .ok (setKey fs p .dir)
  | some _ => .error ()

/-- `File::create`: creates or truncates the file, leaving it empty.
Fails on a directory or an inaccessible path. -/
def file_create (fs : Fs) (p : Path) : Except Unit Fs :=
  match lookupKey fs p with
  | none => .ok (setKey fs p (.file []))
  | some (.file _) => .ok (setKey fs p (.file []))
  | some .dir => .error ()
  | some .noAccess => .error ()

/-- `Write::write_all` on the freshly created file: replaces its content. -/
def file_write_all (fs : Fs) (p : Path) (content : List Byte) : Except Unit Fs :=
  match lookupKey fs p with
  | some (.file _) => .ok (setKey fs p (.file content))
  | _ => .error ()

/-- `upload_crate` (crates/mirror/src/cli_server.rs, lines 21-43), with the
intermediate filesystem states made explicit: push the package name, create
the directory if absent; push the version; if the file exists, ignore
silently (warn); otherwise `File::create` then `write_all`.  The first
component lists the filesystem states observable after each mutating call,
in order; the second is the final result. -/
def upload_crate_trace (fs : Fs) (cache : Path) (pkg : PackageId)
    (content : List Byte) : List Fs × Except Unit Fs :=
  let dirPath := cache ++ [pkg.name]
  let step1 : List Fs × Except Unit Fs :=
    if pathExists fs dirPath then ([], .ok fs)
    else
      match create_dir fs dirPath with
      | .ok fs1 => ([fs1], .ok fs1)
      | .error e => ([], .error e)
  match step1 with
  | (tr, .error e) => (tr, .error e)
  | (tr, .ok fs1) =>
    let filePath := dirPath ++ [pkg.version]
    if pathExists fs1 filePath then (tr, .ok fs1)
    else
      match file_create fs1 filePath with
      | .error e => (tr, .error e)
      | .ok fs2 =>
        match file_write_all fs2 filePath content with
        | .error e => (tr ++ [fs2], .error e)
        | .ok fs3 => (tr ++ [fs2, fs3], .ok fs3)

/-- `upload_crate`: the final outcome only. -/
def upload_crate (fs : Fs) (cache : Path) (pkg : PackageId)
    (content : List Byte) : Except Unit Fs :=
  (upload_crate_trace fs cache pkg content).2

/-- `cpm_api::Request`. -/
inductive Request where
  | CheckMissing (packages : List PackageId)
  | UploadCrate (package : PackageId) (content : List Byte)
deriving DecidableEq, Repr

/-- `cpm_api::Response`. -/
inductive Response where
  | CheckMissing (packages : List PackageId)
  | UploadCrate
deriving DecidableEq, Repr

/-- `cpm_api::Error`: the only protocol error kind that exists. -/
inductive ApiError where
  | NotImplemented
deriving DecidableEq, Repr

/-- `cpm_api::Overlapped`: a sequence-numbered envelope. -/
structure Overlapped (T : Type) where
  sequence : Nat
  payload : T
deriving DecidableEq, Repr

/-- Handling of one control-plane request inside `handle_connection`
(crates/mirror/src/cli_server.rs, lines 53-69): `CheckMissing` answers with
the missing subset; `UploadCrate` runs `upload_crate` and, because of the
`?` operator, an upload error propagates before any response is sent.
Returns the new filesystem and the response envelope, or the propagated
error. -/
def handle_request (fs : Fs) (cache : Path) (msg : Overlapped Request) :
    Except Unit (Fs × Overlapped (Except ApiError Response)) :=
  match msg.payload with
  | .CheckMissing packages =>
      .ok (fs, ⟨msg.sequence, .ok (.CheckMissing (check_missing fs cache packages))⟩)
  | .UploadCrate pkg content =>
      match upload_crate fs cache pkg content with
      | .ok fs' => .ok (fs', ⟨msg.sequence, .ok .UploadCrate⟩)
      | .error e => .error e

/-- `handle_connection` (crates/mirror/src/cli_server.rs, lines 46-73) over
a whole inbound request sequence: the envelopes sent back, in order, and
whether the connection ended gracefully (`Ok`) or was terminated by a
propagated error.  An error terminates the loop: no response is sent for
the failing request nor for any later one. -/
def handle_connection (fs : Fs) (cache : Path) :
    List (Overlapped Request) →
    List (Overlapped (Except ApiError Response)) × Except Unit Unit
  | [] => ([], .ok ())
  | msg :: rest =>
      match handle_request fs cache msg with
      | .error e => ([], .error e)
      | .ok (fs', resp) =>
          let (resps, res) := handle_connection fs' cache rest
          (resp :: resps, res)

/-! ## Framing layers (crates/common/src/lib.rs and
crates/common/src/sync_tcp_end_point.rs) -/

/-- A 16-bit big-endian length, as written by `write_u16::<BigEndian>`. -/
def u16be (n : Nat) : List Byte := [n / 2 ^ 8 % 2 ^ 8, n % 2 ^ 8]

/-- A 32-bit big-endian length, as written by tokio's `write_u32`. -/
def u32be (n : Nat) : List Byte :=
  [n / 2 ^ 24 % 2 ^ 8, n / 2 ^ 16 % 2 ^ 8, n / 2 ^ 8 % 2 ^ 8, n % 2 ^ 8]

/-- `SyncTcpEndPoint::send_request` (crates/common/src/sync_tcp_end_point.rs,
lines 38-49): the bytes put on the wire for one request payload — a 2-byte
big-endian length, then the payload. -/
def sync_send_request_frame (payload : List Byte) : List Byte :=
  u16be payload.length ++ payload

/-- `SyncTcpEndPoint::close` (lines 31-36): the terminator bytes — a 2-byte
zero. -/
def sync_close_frame : List Byte := u16be 0

/-- `TcpSender::send` (crates/common/src/lib.rs, lines 130-137): the bytes
put on the wire for one payload — a 4-byte big-endian length, then the
payload.  This is the tunnel framing, also used by the mirror's
control-plane server for its responses. -/
def tcp_sender_frame (payload : List Byte) : List Byte :=
  u32be payload.length ++ payload

/-- `TcpSender::close` (lines 139-143): the terminator bytes — a 4-byte
zero. -/
def tcp_sender_close_frame : List Byte := u32be 0

/-- Reading a 4-byte big-endian integer from a byte stream, as tokio's
`read_u32` does. -/
def read_u32be : List Byte → Option (Nat × List Byte)
  | b0 :: b1 :: b2 :: b3 :: rest =>
      some (((b0 * 2 ^ 8 + b1) * 2 ^ 8 + b2) * 2 ^ 8 + b3, rest)
  | _ => none

/-- `TcpReceiver::next` (crates/common/src/lib.rs, lines 181-191), at the
framing level: read a 4-byte big-endian length; zero means end of stream;
otherwise read exactly that many payload bytes.  `none` is an I/O error
(not enough bytes).  This is what the mirror's control-plane server runs on
incoming bytes. -/
def tcp_receiver_next (bytes : List Byte) :
    Option (Option (List Byte) × List Byte) :=
  match read_u32be bytes with
  | none => none
  | some (len, rest) =>
      if len = 0 then some (none, rest)
      else if rest.length < len then none
      else some (some (rest.take len), rest.drop len)

/-! ## Association-list lemmas -/

theorem lookupKey_setKey_self {α β : Type} [DecidableEq α]
    (l : List (α × β)) (k : α) (v : β) :
    lookupKey (setKey l k v) k = some v := by
  induction l with
  | nil => simp [setKey, lookupKey]
  | cons hd tl ih =>
      obtain ⟨a, b⟩ := hd
      by_cases h : a = k
      · simp [setKey, h, lookupKey]
      · simp [setKey, h, lookupKey, ih]

theorem lookupKey_setKey_ne {α β : Type} [DecidableEq α]
    (l : List (α × β)) (k k' : α) (v : β) (h : k' ≠ k) :
    lookupKey (setKey l k v) k' = lookupKey l k' := by
  induction l with
  | nil => simp [setKey, lookupKey, Ne.symm h]
  | cons hd tl ih =>
      obtain ⟨a, b⟩ := hd
      by_cases ha : a = k
      · subst ha
        simp [setKey, lookupKey, Ne.symm h]
      · simp [setKey, ha, lookupKey, ih]

theorem lookupKey_eq_none {α β : Type} [DecidableEq α]
    (l : List (α × β)) (k : α) (h : k ∉ l.map Prod.fst) :
    lookupKey l k = none := by
  induction l with
  | nil => simp [lookupKey]
  | cons hd tl ih =>
      obtain ⟨a, b⟩ := hd
      simp only [List.map_cons, List.mem_cons, not_or] at h
      simp [lookupKey, Ne.symm h.1, ih h.2]

theorem lookupKey_removeKey_self {α β : Type} [DecidableEq α]
    (l : List (α × β)) (k : α) (h : (l.map Prod.fst).Nodup) :
    lookupKey (removeKey l k) k = none := by
  induction l with
  | nil => simp [removeKey, lookupKey]
  | cons hd tl ih =>
      obtain ⟨a, b⟩ := hd
      simp only [List.map_cons, List.nodup_cons] at h
      by_cases ha : a = k
      · subst ha
        simp [removeKey, lookupKey_eq_none tl a h.1]
      · simp [removeKey, ha, lookupKey, ih h.2]

/-! ## Claim C10 -/

/-- C10: `parse_download_request` accepts the path
`/api/v1/crates/foo//download`, returning package `foo` with an empty
version string, rather than rejecting with 404. -/
theorem C10_empty_version_accepted :
    parse_download_request (some ("/api/v1/crates/foo//download", none))
      = .ok ("foo", "") := by decide

/-! ## Claim C2 -/

/-- C2: the control-plane framing disagrees between the two endpoints.
The claim says both directions use a 4-byte big-endian length.  The mirror
server does (`TcpSender`/`TcpReceiver`), but the CLI client
(`SyncTcpEndPoint::send_request`) frames with a 2-byte big-endian length,
and its `close` terminator is a 2-byte zero: for the 3-byte payload
`[1,2,3]` the client emits `[0,3,1,2,3]`, not the `[0,0,0,3,1,2,3]` the
server-side framing produces, and feeding the client's bytes to the
server's `TcpReceiver::next` misframes (it reads the length 196866 and
fails).  This evaluates the code at the failing input. -/
theorem C2_client_framing_is_two_bytes :
    sync_send_request_frame [1, 2, 3] = [0, 3, 1, 2, 3]
    ∧ tcp_sender_frame [1, 2, 3] = [0, 0, 0, 3, 1, 2, 3]
    ∧ sync_send_request_frame [1, 2, 3] ≠ u32be 3 ++ [1, 2, 3]
    ∧ tcp_receiver_next (sync_send_request_frame [1, 2, 3]) = none
    ∧ sync_close_frame ≠ tcp_sender_close_frame := by
  refine ⟨by decide, by decide, by decide, by decide, by decide⟩

/-! ## Claim C3: counterexample -/

/-- C3 counterexample: when the upstream answers with a plain 404 (a
non-success, non-redirect status), the worker emits a bare
`Complete(Err(Unspecified))` with no preceding `Init`, even though the TX
channel is alive throughout — so the emitted opcode sequence does not match
the regex `Init Chunk* Complete` as the claim states. -/
theorem C3_counterexample_error_before_init :
    download_task_ops [Fetch.response ⟨404, none, none, none, []⟩]
      = [Opcode.Complete (.error .Unspecified)]
    ∧ matches_init_chunks_complete
        (download_task_ops [Fetch.response ⟨404, none, none, none, []⟩])
      = false := by
  exact ⟨rfl, rfl⟩

/-! ## Claim C5: counterexample -/

/-- C5 counterexample: `check_missing` tests `Path::exists`, not "is a
regular file".  When `<cache>/foo/1.0` is a directory, the code treats the
package as present while the claim demands it be reported missing; when
metadata on `<cache>/foo/1.0` cannot be read, `exists()` is `false`, so the
code reports the package missing while the claim demands the error be
treated as present. -/
theorem C5_counterexample_dir_and_error :
    check_missing [(["c", "foo", "1.0"], FsEntry.dir)] ["c"] [⟨"foo", "1.0"⟩] = []
    ∧ check_missing_claimed [(["c", "foo", "1.0"], FsEntry.dir)] ["c"]
        [⟨"foo", "1.0"⟩] = [⟨"foo", "1.0"⟩]
    ∧ check_missing [(["c", "foo", "1.0"], FsEntry.noAccess)] ["c"]
        [⟨"foo", "1.0"⟩] = [⟨"foo", "1.0"⟩]
    ∧ check_missing_claimed [(["c", "foo", "1.0"], FsEntry.noAccess)] ["c"]
        [⟨"foo", "1.0"⟩] = [] := by
  refine ⟨by decide, by decide, by decide, by decide⟩

/-! ## Claim C7: counterexample -/

/-- C7 counterexample: `upload_crate` writes with `File::create` directly
at `<cache>/name/version` followed by `write_all` — no temporary file, no
rename.  Uploading `[1,2]` into an empty cache passes through an
observable intermediate filesystem state in which the final path already
exists as a regular file with empty content, so a concurrent reader of
that path can observe a partially-written file, contradicting the claim. -/
theorem C7_counterexample_partial_file_observable :
    [(["c"], FsEntry.dir), (["c", "foo"], FsEntry.dir),
     (["c", "foo", "1.0"], FsEntry.file [])]
      ∈ (upload_crate_trace [(["c"], FsEntry.dir)] ["c"] ⟨"foo", "1.0"⟩ [1, 2]).1
    ∧ lookupKey
        [(["c"], FsEntry.dir), (["c", "foo"], FsEntry.dir),
         (["c", "foo", "1.0"], FsEntry.file [])]
        ["c", "foo", "1.0"] = some (FsEntry.file [])
    ∧ FsEntry.file ([] : List Byte) ≠ FsEntry.file [1, 2] := by
  refine ⟨by decide, by decide, by decide⟩

/-! ## Claim C8: counterexample -/

/-- C8 counterexample: when the cache write inside `UploadCrate` fails
(here: `<cache>/foo` has unreadable metadata, so `create_dir` errors), the
`?` in `handle_connection` propagates the error: the connection terminates
with an error and no response envelope at all is sent — in particular no
`ProtocolError` echoing the request's sequence number 7, contradicting the
claim. -/
theorem C8_counterexample_no_error_response :
    handle_connection [(["c", "foo"], FsEntry.noAccess)] ["c"]
      [⟨7, Request.UploadCrate ⟨"foo", "1.0"⟩ [1]⟩]
      = ([], .error ()) := by decide

/-! ## Claim C9: counterexample -/

/-- C9 counterexample: delivering a `Complete` opcode does not destroy the
session.  With session 1 live and its receiver alive, routing
`Complete(Ok)` appends the opcode to its queue and leaves the entry in the
multiplexer's session table, contradicting the claim that observing a
`Complete` removes the entry. -/
theorem C9_counterexample_complete_keeps_entry :
    lookupKey (route_message ⟨1, some 0, [(1, ⟨true, []⟩)]⟩
        ⟨1, Opcode.Complete (.ok ())⟩).sessions 1
      = some ⟨true, [Opcode.Complete (.ok ())]⟩
    ∧ lookupKey (route_message ⟨1, some 0, [(1, ⟨true, []⟩)]⟩
        ⟨1, Opcode.Complete (.ok ())⟩).sessions 1 ≠ none := by
  exact ⟨rfl, by decide⟩

/-! ## Claim C1 -/

theorem streamBody_blocks (blocks : List (List Byte)) :
    streamBody (blocks.map BodyItem.block) = (blocks.map Opcode.Chunk, .ok ()) := by
  induction blocks with
  | nil => rfl
  | cons b rest ih => simp [streamBody, ih]

theorem download_task_ops_success (ct : String) (cl : Nat)
    (blocks : List (List Byte)) :
    download_task_ops
        [Fetch.response ⟨200, none, some ct, some cl, blocks.map BodyItem.block⟩]
      = Opcode.Init ⟨ct, cl⟩ ::
          (blocks.map Opcode.Chunk ++ [Opcode.Complete (.ok ())]) := by
  simp [download_task_ops, download_file, download_file_loop, is_success,
    do_download, streamBody_blocks]

theorem filterMap_chunks_complete (blocks : List (List Byte)) :
    (blocks.map Opcode.Chunk ++ [Opcode.Complete (.ok ())]).filterMap
        filter_map_item
      = blocks.map Except.ok := by
  induction blocks with
  | nil => rfl
  | cons b rest ih => simp [List.filterMap_cons, filter_map_item, ih]

theorem collect_body_ok (blocks : List (List Byte)) :
    collect_body (blocks.map Except.ok) = (blocks.flatten, true) := by
  induction blocks with
  | nil => rfl
  | cons b rest ih => simp [collect_body, ih]

theorem chunk_payloads_chunks (blocks : List (List Byte)) (r : Except DsError Unit) :
    chunk_payloads (blocks.map Opcode.Chunk ++ [Opcode.Complete r]) = blocks := by
  induction blocks with
  | nil => rfl
  | cons b rest ih => simp [chunk_payloads, List.filterMap_cons] at ih ⊢ ; exact ih

/-- C1: for a successful proxied download (upstream 200 with parseable
headers, body read as `blocks`, clean EOF), the worker emits
`Init, Chunk(block)..., Complete(Ok)`; the mirror's `proxy_download`
accepts the stream and produces a body whose delivered bytes are exactly
the concatenation of the `Chunk` payloads in emission order, which in turn
equal the upstream body `blocks.flatten` byte-for-byte (and the body ends
cleanly). -/
theorem C1_success_delivers_upstream_bytes (ct : String) (cl : Nat)
    (blocks : List (List Byte)) :
    proxy_download (download_task_ops
        [Fetch.response ⟨200, none, some ct, some cl, blocks.map BodyItem.block⟩])
      = .ok (⟨ct, cl⟩, blocks.map Except.ok)
    ∧ collect_body (blocks.map Except.ok)
      = ((chunk_payloads (download_task_ops
          [Fetch.response ⟨200, none, some ct, some cl, blocks.map BodyItem.block⟩])).flatten,
         true)
    ∧ (chunk_payloads (download_task_ops
        [Fetch.response ⟨200, none, some ct, some cl, blocks.map BodyItem.block⟩])).flatten
      = blocks.flatten := by
  rw [download_task_ops_success]
  refine ⟨?_, ?_, ?_⟩
  · rw [proxy_download, filterMap_chunks_complete]
  · rw [show chunk_payloads (Opcode.Init ⟨ct, cl⟩ ::
        (blocks.map Opcode.Chunk ++ [Opcode.Complete (.ok ())]))
      = chunk_payloads (blocks.map Opcode.Chunk ++ [Opcode.Complete (.ok ())]) from rfl]
    rw [chunk_payloads_chunks, collect_body_ok]
  · rw [show chunk_payloads (Opcode.Init ⟨ct, cl⟩ ::
        (blocks.map Opcode.Chunk ++ [Opcode.Complete (.ok ())]))
      = chunk_payloads (blocks.map Opcode.Chunk ++ [Opcode.Complete (.ok ())]) from rfl]
    rw [chunk_payloads_chunks]

/-! ## Claim C3: amended theorem -/

theorem getLast?_cons_append_one {α : Type} (a b : α) (l : List α) :
    (a :: (l ++ [b])).getLast? = some b := by
  rw [← List.cons_append, List.getLast?_concat]

theorem chunks_then_complete_stream (body : List BodyItem) (r : Except DsError Unit) :
    chunks_then_complete ((streamBody body).1 ++ [Opcode.Complete r]) = true := by
  induction body with
  | nil => rfl
  | cons item rest ih =>
      cases item with
      | block b => simpa [streamBody, chunks_then_complete] using ih
      | ioError => rfl

/-- C3 amended: the opcode sequence a download task emits for its session
matches `Init Chunk* Complete` when the download reaches header extraction,
and is a bare `Complete(Err)` when it fails earlier (HTTP error, bad
redirect, missing header); the final opcode is `Complete(Ok)` exactly when
the body streamed to a clean EOF; when the TX channel dies after `k`
accepted sends, the emitted sequence is the length-`k` prefix of the full
one; and every emitted message carries the session id of the originating
upstream request. -/
theorem C3_amended_opcode_shape (sid : Nat) (chain : List Fetch) :
    matches_amended_shape (download_task_ops chain) = true
    ∧ ((download_task_ops chain).getLast? = some (Opcode.Complete (.ok ()))
        ↔ (download_file chain).2 = .ok ())
    ∧ (∀ k, download_task_sent chain (some k) ++ (download_task_ops chain).drop k
        = download_task_ops chain)
    ∧ (∀ alive, ∀ m ∈ download_task_msgs sid chain alive, m.session_id = sid) := by
  refine ⟨?_, ?_, ?_, ?_⟩
  · cases hloop : download_file_loop chain with
    | error e =>
        simp [matches_amended_shape, matches_init_chunks_complete,
          download_task_ops, download_file, hloop]
    | ok r =>
        cases hct : r.contentType with
        | none =>
            simp [matches_amended_shape, matches_init_chunks_complete,
              download_task_ops, download_file, do_download, hloop, hct]
        | some ct =>
            cases hcl : r.contentLength with
            | none =>
                simp [matches_amended_shape, matches_init_chunks_complete,
                  download_task_ops, download_file, do_download, hloop, hct, hcl]
            | some cl =>
                cases hres : (streamBody r.body).2 with
                | ok u =>
                    simp [matches_amended_shape, matches_init_chunks_complete,
                      download_task_ops, download_file, do_download, hloop, hct,
                      hcl, hres, chunks_then_complete_stream]
                | error e =>
                    simp [matches_amended_shape, matches_init_chunks_complete,
                      download_task_ops, download_file, do_download, hloop, hct,
                      hcl, hres, chunks_then_complete_stream]
  · cases hloop : download_file_loop chain with
    | error e =>
        simp [download_task_ops, download_file, hloop]
    | ok r =>
        cases hct : r.contentType with
        | none =>
            simp [download_task_ops, download_file, do_download, hloop, hct]
        | some ct =>
            cases hcl : r.contentLength with
            | none =>
                simp [download_task_ops, download_file, do_download, hloop, hct, hcl]
            | some cl =>
                cases hres : (streamBody r.body).2 with
                | ok u =>
                    simp [download_task_ops, download_file, do_download, hloop,
                      hct, hcl, hres, getLast?_cons_append_one]
                | error e =>
                    simp [download_task_ops, download_file, do_download, hloop,
                      hct, hcl, hres, getLast?_cons_append_one]
  · exact fun k => List.take_append_drop k (download_task_ops chain)
  · intro alive m hm
    simp only [download_task_msgs, List.mem_map] at hm
    obtain ⟨op, _, rfl⟩ := hm
    rfl

/-! ## Claim C4 -/

theorem route_message_no_sessions (st : MuxState) (m : Message)
    (h : st.sessions = []) : route_message st m = st := by
  simp [route_message, h, lookupKey]

theorem process_receives_no_sessions (st : MuxState) (ms : List Message)
    (h : st.sessions = []) : process_receives st ms = st := by
  induction ms with
  | nil => rfl
  | cons m rest ih =>
      calc process_receives st (m :: rest)
          = process_receives (route_message st m) rest := rfl
        _ = process_receives st rest := by rw [route_message_no_sessions st m h]
        _ = st := ih

/-- C4: when a new tunnel connection is accepted while an uplink exists,
`reset_uplink_to` installs the new uplink as the only one, empties the
session table, and the cleanup task delivers to each session that was live
at that moment (entry present, receiver alive) exactly one synthetic
`Complete(Err(Unspecified))` appended to its queue; afterwards any sequence
of inbound downstream messages leaves the multiplexer state untouched, so
no previously-live session is delivered any further opcode. -/
theorem C4_reset_evicts_all_sessions (st : MuxState) (u : Nat)
    (h : st.uplink.isSome = true) :
    (reset_uplink_to st u).1.uplink = some u
    ∧ (reset_uplink_to st u).1.sessions = []
    ∧ (∀ i s, (i, s) ∈ st.sessions → s.alive = true →
        (i, ⟨true, s.queue ++ [synthetic_complete]⟩) ∈ (reset_uplink_to st u).2)
    ∧ (∀ ms, process_receives (reset_uplink_to st u).1 ms
        = (reset_uplink_to st u).1) := by
  refine ⟨?_, ?_, ?_, ?_⟩
  · simp [reset_uplink_to, h]
  · simp [reset_uplink_to, h]
  · intro i s hmem halive
    obtain ⟨al, q⟩ := s
    subst halive
    simp only [reset_uplink_to, h, if_true]
    exact List.mem_map.mpr ⟨(i, ⟨true, q⟩), hmem, by simp [Session.send]⟩
  · intro ms
    apply process_receives_no_sessions
    simp [reset_uplink_to, h]

/-- C4 witness: the reset theorem applied to a concrete state holding an
uplink and one live session. -/
theorem C4_reset_witness :
    (MuxState.mk 5 (some 0) [(1, ⟨true, [Opcode.Chunk [7]]⟩)]).uplink.isSome = true
    ∧ (reset_uplink_to
        (MuxState.mk 5 (some 0) [(1, ⟨true, [Opcode.Chunk [7]]⟩)]) 1).1.sessions
      = [] :=
  ⟨by decide, (C4_reset_evicts_all_sessions _ 1 (by decide)).2.1⟩

/-! ## Claim C9: amended theorem -/

/-- C9 amended: observing a `Complete` does not by itself destroy the
session's table entry.  Routing a message to a known session appends the
opcode (any opcode, `Complete` included) and keeps the entry whenever the
receiver is alive; the entry is removed exactly when the delivery send
fails because the receiver was dropped (HTTP client disconnect) — or, per
the reset theorem, when the tunnel is reset. -/
theorem C9_amended_removal_on_failed_send_only (st : MuxState) (m : Message)
    (s : Session) (hnodup : (st.sessions.map Prod.fst).Nodup)
    (hs : lookupKey st.sessions m.session_id = some s) :
    (s.alive = true →
      lookupKey (route_message st m).sessions m.session_id
        = some ⟨true, s.queue ++ [m.opcode]⟩)
    ∧ (s.alive = false →
      lookupKey (route_message st m).sessions m.session_id = none) := by
  obtain ⟨al, q⟩ := s
  constructor
  · intro ha
    subst ha
    simp [route_message, hs, Session.send, lookupKey_setKey_self]
  · intro ha
    subst ha
    simp [route_message, hs, Session.send, lookupKey_removeKey_self _ _ hnodup]

/-- C9 amended witness: delivering a `Chunk` to a live concrete session
keeps its entry with the opcode appended. -/
theorem C9_amended_witness :
    ((([(1, (⟨true, ([] : List Opcode)⟩ : Session))]).map Prod.fst).Nodup)
    ∧ lookupKey (route_message ⟨3, some 0, [(1, ⟨true, []⟩)]⟩
        ⟨1, Opcode.Chunk [2]⟩).sessions 1
      = some ⟨true, [Opcode.Chunk [2]]⟩ := by
  refine ⟨by decide, ?_⟩
  exact (C9_amended_removal_on_failed_send_only ⟨3, some 0, [(1, ⟨true, []⟩)]⟩
    ⟨1, Opcode.Chunk [2]⟩ ⟨true, []⟩ (by decide) (by decide)).1 rfl

/-! ## Claim C5: amended theorem -/

/-- C5 amended: `CheckMissing(L)` returns, in order, exactly those
`PackageId`s of `L` for which the `Path::exists` test on
`<cache>/name/version` is false — i.e. the path is absent or its metadata
cannot be read.  (A directory at the path counts as present; a metadata
error counts as missing.) -/
theorem C5_amended_returns_non_existing (fs : Fs) (cache : Path)
    (packages : List PackageId) (id : PackageId) :
    (id ∈ check_missing fs cache packages
      ↔ id ∈ packages ∧ pathExists fs (crate_path cache id) = false)
    ∧ List.Sublist (check_missing fs cache packages) packages := by
  constructor
  · simp [check_missing, List.mem_filter]
  · exact List.filter_sublist _

/-! ## Claims C6 and C7: evaluation lemmas for the upload path -/

theorem crate_path_ne_dir_path (cache : Path) (n v : String) :
    cache ++ [n, v] ≠ cache ++ [n] := by
  intro h
  have hl := congrArg List.length h
  simp at hl

theorem pathExists_setKey_ne (fs : Fs) (p q : Path) (e : FsEntry) (h : p ≠ q) :
    pathExists (setKey fs q e) p = pathExists fs p := by
  simp [pathExists, lookupKey_setKey_ne _ _ _ _ h]

theorem upload_crate_trace_write (fs : Fs) (cache : Path) (pkg : PackageId)
    (b : List Byte)
    (hdp : pathExists fs (cache ++ [pkg.name]) = true)
    (hfp : lookupKey fs (cache ++ [pkg.name, pkg.version]) = none) :
    upload_crate_trace fs cache pkg b =
      ([setKey fs (cache ++ [pkg.name, pkg.version]) (.file []),
        setKey (setKey fs (cache ++ [pkg.name, pkg.version]) (.file []))
          (cache ++ [pkg.name, pkg.version]) (.file b)],
       .ok (setKey (setKey fs (cache ++ [pkg.name, pkg.version]) (.file []))
          (cache ++ [pkg.name, pkg.version]) (.file b))) := by
  have hex : pathExists fs (cache ++ [pkg.name, pkg.version]) = false := by
    simp [pathExists, hfp]
  simp [upload_crate_trace, hdp, hex, hfp, file_create, file_write_all,
    lookupKey_setKey_self]

theorem upload_crate_trace_create_dir (fs : Fs) (cache : Path) (pkg : PackageId)
    (b : List Byte)
    (hdp : lookupKey fs (cache ++ [pkg.name]) = none)
    (hfp : lookupKey fs (cache ++ [pkg.name, pkg.version]) = none) :
    upload_crate_trace fs cache pkg b =
      ([setKey fs (cache ++ [pkg.name]) .dir,
        setKey (setKey fs (cache ++ [pkg.name]) .dir)
          (cache ++ [pkg.name, pkg.version]) (.file []),
        setKey (setKey (setKey fs (cache ++ [pkg.name]) .dir)
            (cache ++ [pkg.name, pkg.version]) (.file []))
          (cache ++ [pkg.name, pkg.version]) (.file b)],
       .ok (setKey (setKey (setKey fs (cache ++ [pkg.name]) .dir)
            (cache ++ [pkg.name, pkg.version]) (.file []))
          (cache ++ [pkg.name, pkg.version]) (.file b))) := by
  have hexd : pathExists fs (cache ++ [pkg.name]) = false := by
    simp [pathExists, hdp]
  have hfpA : lookupKey (setKey fs (cache ++ [pkg.name]) .dir)
      (cache ++ [pkg.name, pkg.version]) = none := by
    rw [lookupKey_setKey_ne _ _ _ _ (crate_path_ne_dir_path cache _ _)]
    exact hfp
  have hexA : pathExists (setKey fs (cache ++ [pkg.name]) .dir)
      (cache ++ [pkg.name, pkg.version]) = false := by
    simp [pathExists, hfpA]
  simp [upload_crate_trace, hexd, hdp, create_dir, hexA, hfpA, file_create,
    file_write_all, lookupKey_setKey_self]

theorem upload_crate_trace_skip (fs : Fs) (cache : Path) (pkg : PackageId)
    (b : List Byte)
    (hdp : pathExists fs (cache ++ [pkg.name]) = true)
    (hfp : pathExists fs (cache ++ [pkg.name, pkg.version]) = true) :
    upload_crate_trace fs cache pkg b = ([], .ok fs) := by
  simp [upload_crate_trace, hdp, hfp]

theorem upload_idempotent_of_dir (fs : Fs) (cache : Path) (pkg : PackageId)
    (b1 b2 : List Byte)
    (hexd : pathExists fs (cache ++ [pkg.name]) = true)
    (habsent : lookupKey fs (cache ++ [pkg.name, pkg.version]) = none) :
    upload_crate fs cache pkg b1
      = .ok (setKey (setKey fs (cache ++ [pkg.name, pkg.version]) (.file []))
          (cache ++ [pkg.name, pkg.version]) (.file b1))
    ∧ lookupKey (setKey (setKey fs (cache ++ [pkg.name, pkg.version]) (.file []))
          (cache ++ [pkg.name, pkg.version]) (.file b1))
        (cache ++ [pkg.name, pkg.version]) = some (.file b1)
    ∧ upload_crate (setKey (setKey fs (cache ++ [pkg.name, pkg.version]) (.file []))
          (cache ++ [pkg.name, pkg.version]) (.file b1)) cache pkg b2
      = .ok (setKey (setKey fs (cache ++ [pkg.name, pkg.version]) (.file []))
          (cache ++ [pkg.name, pkg.version]) (.file b1)) := by
  have hlook : lookupKey
      (setKey (setKey fs (cache ++ [pkg.name, pkg.version]) (.file []))
        (cache ++ [pkg.name, pkg.version]) (.file b1))
      (cache ++ [pkg.name, pkg.version]) = some (.file b1) :=
    lookupKey_setKey_self _ _ _
  have hne : cache ++ [pkg.name] ≠ cache ++ [pkg.name, pkg.version] :=
    Ne.symm (crate_path_ne_dir_path cache _ _)
  have hdp1 : pathExists
      (setKey (setKey fs (cache ++ [pkg.name, pkg.version]) (.file []))
        (cache ++ [pkg.name, pkg.version]) (.file b1))
      (cache ++ [pkg.name]) = true := by
    rw [pathExists_setKey_ne _ _ _ _ hne, pathExists_setKey_ne _ _ _ _ hne]
    exact hexd
  have hfp1 : pathExists
      (setKey (setKey fs (cache ++ [pkg.name, pkg.version]) (.file []))
        (cache ++ [pkg.name, pkg.version]) (.file b1))
      (cache ++ [pkg.name, pkg.version]) = true := by
    simp [pathExists, hlook]
  refine ⟨?_, hlook, ?_⟩
  · rw [upload_crate, upload_crate_trace_write fs cache pkg b1 hexd habsent]
  · rw [upload_crate, upload_crate_trace_skip _ _ _ _ hdp1 hfp1]

/-! ## Claim C6 -/

/-- C6: `UploadCrate` never overwrites and is idempotent.  If
`<cache>/name/version` is initially absent and the first upload of `b1`
succeeds producing cache state `fs1`, then `fs1` holds exactly `b1` at that
path, and a second upload of any `b2` for the same package returns success
while leaving the cache state unchanged (so the file still contains
`b1`). -/
theorem C6_upload_idempotent (fs : Fs) (cache : Path) (pkg : PackageId)
    (b1 b2 : List Byte) (fs1 : Fs)
    (habsent : lookupKey fs (crate_path cache pkg) = none)
    (h1 : upload_crate fs cache pkg b1 = .ok fs1) :
    lookupKey fs1 (crate_path cache pkg) = some (.file b1)
    ∧ upload_crate fs1 cache pkg b2 = .ok fs1 := by
  simp only [crate_path] at habsent ⊢
  cases hdp : lookupKey fs (cache ++ [pkg.name]) with
  | none =>
      rw [upload_crate, upload_crate_trace_create_dir fs cache pkg b1 hdp habsent]
        at h1
      obtain rfl : _ = fs1 := Except.ok.inj h1
      have hexd : pathExists (setKey fs (cache ++ [pkg.name]) .dir)
          (cache ++ [pkg.name]) = true := by
        simp [pathExists, lookupKey_setKey_self]
      have habsA : lookupKey (setKey fs (cache ++ [pkg.name]) .dir)
          (cache ++ [pkg.name, pkg.version]) = none := by
        rw [lookupKey_setKey_ne _ _ _ _ (crate_path_ne_dir_path cache _ _)]
        exact habsent
      have hcore := upload_idempotent_of_dir (setKey fs (cache ++ [pkg.name]) .dir)
        cache pkg b1 b2 hexd habsA
      exact ⟨hcore.2.1, hcore.2.2⟩
  | some entry =>
      cases entry with
      | noAccess =>
          have hexd : pathExists fs (cache ++ [pkg.name]) = false := by
            simp [pathExists, hdp]
          rw [upload_crate, upload_crate_trace] at h1
          simp [hexd, hdp, create_dir] at h1
      | dir =>
          have hexd : pathExists fs (cache ++ [pkg.name]) = true := by
            simp [pathExists, hdp]
          have hcore := upload_idempotent_of_dir fs cache pkg b1 b2 hexd habsent
          rw [hcore.1] at h1
          obtain rfl : _ = fs1 := Except.ok.inj h1
          exact ⟨hcore.2.1, hcore.2.2⟩
      | file c =>
          have hexd : pathExists fs (cache ++ [pkg.name]) = true := by
            simp [pathExists, hdp]
          have hcore := upload_idempotent_of_dir fs cache pkg b1 b2 hexd habsent
          rw [hcore.1] at h1
          obtain rfl : _ = fs1 := Except.ok.inj h1
          exact ⟨hcore.2.1, hcore.2.2⟩

/-- C6 witness: uploading `[1]` then `[2]` for `foo/1.0` into an empty
cache leaves the file containing `[1]` and the second upload succeeds
without change. -/
theorem C6_upload_witness :
    lookupKey ([] : Fs) (crate_path ["c"] ⟨"foo", "1.0"⟩) = none
    ∧ upload_crate [] ["c"] ⟨"foo", "1.0"⟩ [1]
      = .ok [(["c", "foo"], .dir), (["c", "foo", "1.0"], .file [1])]
    ∧ lookupKey [(["c", "foo"], FsEntry.dir), (["c", "foo", "1.0"], FsEntry.file [1])]
        (crate_path ["c"] ⟨"foo", "1.0"⟩) = some (.file [1])
    ∧ upload_crate [(["c", "foo"], FsEntry.dir), (["c", "foo", "1.0"], FsEntry.file [1])]
        ["c"] ⟨"foo", "1.0"⟩ [2]
      = .ok [(["c", "foo"], FsEntry.dir), (["c", "foo", "1.0"], FsEntry.file [1])] := by
  refine ⟨by decide, by decide, ?_, ?_⟩
  · exact (C6_upload_idempotent [] ["c"] ⟨"foo", "1.0"⟩ [1] [2] _ (by decide)
      (by decide)).1
  · exact (C6_upload_idempotent [] ["c"] ⟨"foo", "1.0"⟩ [1] [2] _ (by decide)
      (by decide)).2

/-! ## Claim C7: amended theorem -/

/-- C7 amended: `UploadCrate` writes a new entry directly at
`<cache>/name/version` with `File::create` followed by `write_all` — there
is no temporary file and no rename.  The write passes through an
observable intermediate filesystem state in which the final path already
exists as an empty regular file (so a concurrent reader may see a
partially-written file); only the final state holds the uploaded bytes. -/
theorem C7_amended_direct_write_not_atomic (fs : Fs) (cache : Path)
    (pkg : PackageId) (content : List Byte)
    (hdir : lookupKey fs (cache ++ [pkg.name]) = some .dir)
    (hfile : lookupKey fs (crate_path cache pkg) = none) :
    (upload_crate_trace fs cache pkg content).1
      = [setKey fs (crate_path cache pkg) (.file []),
         setKey (setKey fs (crate_path cache pkg) (.file []))
           (crate_path cache pkg) (.file content)]
    ∧ lookupKey (setKey fs (crate_path cache pkg) (.file []))
        (crate_path cache pkg) = some (.file [])
    ∧ upload_crate fs cache pkg content
      = .ok (setKey (setKey fs (crate_path cache pkg) (.file []))
          (crate_path cache pkg) (.file content)) := by
  simp only [crate_path] at hfile ⊢
  have hexd : pathExists fs (cache ++ [pkg.name]) = true := by
    simp [pathExists, hdir]
  have htr := upload_crate_trace_write fs cache pkg content hexd hfile
  exact ⟨by rw [htr], lookupKey_setKey_self _ _ _, by rw [upload_crate, htr]⟩

/-- C7 amended witness: the direct-write theorem applied to a cache holding
just the package directory. -/
theorem C7_amended_witness :
    lookupKey [(["c", "foo"], FsEntry.dir)] (["c"] ++ ["foo"]) = some .dir
    ∧ (upload_crate_trace [(["c", "foo"], FsEntry.dir)] ["c"] ⟨"foo", "1.0"⟩
        [1, 2]).1
      = [setKey [(["c", "foo"], FsEntry.dir)] (crate_path ["c"] ⟨"foo", "1.0"⟩)
           (.file []),
         setKey (setKey [(["c", "foo"], FsEntry.dir)]
             (crate_path ["c"] ⟨"foo", "1.0"⟩) (.file []))
           (crate_path ["c"] ⟨"foo", "1.0"⟩) (.file [1, 2])] := by
  refine ⟨by decide, ?_⟩
  exact (C7_amended_direct_write_not_atomic [(["c", "foo"], FsEntry.dir)] ["c"]
    ⟨"foo", "1.0"⟩ [1, 2] (by decide) (by decide)).1

/-! ## Claim C8: amended theorem -/

/-- C8 amended: when the cache write inside `UploadCrate` fails, the `?`
operator in `handle_connection` propagates the I/O error: the connection
terminates with that error, and no response envelope (neither a success nor
any protocol-error payload) is sent for the failing request or any later
request on the connection. -/
theorem C8_amended_upload_error_terminates (fs : Fs) (cache : Path) (seq : Nat)
    (pkg : PackageId) (content : List Byte) (rest : List (Overlapped Request))
    (hfail : upload_crate fs cache pkg content = .error ()) :
    handle_connection fs cache (⟨seq, .UploadCrate pkg content⟩ :: rest)
      = ([], .error ()) := by
  simp [handle_connection, handle_request, hfail]

/-- C8 amended witness: a failing upload (package directory metadata
unreadable) terminates the connection without any response, even with a
further request pending. -/
theorem C8_amended_witness :
    upload_crate [(["c", "foo"], FsEntry.noAccess)] ["c"] ⟨"foo", "1.0"⟩ [1]
      = .error ()
    ∧ handle_connection [(["c", "foo"], FsEntry.noAccess)] ["c"]
        [⟨7, Request.UploadCrate ⟨"foo", "1.0"⟩ [1]⟩, ⟨8, Request.CheckMissing []⟩]
      = ([], .error ()) := by
  refine ⟨by decide, ?_⟩
  exact C8_amended_upload_error_terminates [(["c", "foo"], FsEntry.noAccess)] ["c"]
    7 ⟨"foo", "1.0"⟩ [1] [⟨8, Request.CheckMissing []⟩] (by decide)

end CargoProxyMirror
